import Mathlib

/-!
Verification of the it-jobs-analytics crawler core
(`src/it_jobs_analytics/utils/parsers/`): the HTML-to-text normalization
pipeline (`BaseParser.convert_html_to_text`), the paginated discovery
algorithm (`DjinniParser.get_jobs_by_category`, `DouParser.get_jobs_by_category`),
the description-fetch stage (`BaseParser.get_all_jobs`) and the per-source
description fetchers (`DjinniParser.get_job_description`,
`DouParser.get_job_description`).

Shallow-embedding conventions:
* Calendar dates (`datetime.date`) are embedded as `Int` values; only their
  total order matters to the code.  Concrete dates are written `yyyymmdd`
  (e.g. `20240501`), which is order-preserving for valid dates.
* Network I/O is embedded as explicit environment functions supplying, per
  request (and per retry attempt where the code re-issues the request), either
  a failure (`requests.RequestException`, including the `raise_for_status`
  path for non-2xx statuses) or the parsed payload of the response.  The
  BeautifulSoup extraction of fields from HTML markup is abstracted: the
  environment supplies the extracted per-item fields directly.
* Python strings are embedded as `String` / `List Char`; the regex
  substitutions of `BaseParser` are embedded as executable character scanners
  whose semantics were checked against CPython's `re` on the inputs used below.
-/

/-- One job posting: the dict built at
`djinni_parser.py:80-89` / `dou_parser.py:73-82`, with the optional
`description` key added by `BaseParser.get_all_jobs` (`base_parser.py:135`). -/
structure Job where
  category : String
  company : String
  published_at : Int
  source : String
  title : String
  url : String
  description : Option String := none
deriving Repr, DecidableEq

/-- `BaseParser.MAX_RETRIES` (`base_parser.py:32`). -/
def MAX_RETRIES : Nat := 3

/-- The window predicate `start_date <= job["published_at"] <= end_date`
(`djinni_parser.py:139`, `dou_parser.py:160`). -/
def inWindow (s e : Int) (j : Job) : Bool :=
  decide (s ≤ j.published_at) && decide (j.published_at ≤ e)

/-- Python's `\s` character class / `str.strip()` default set, restricted to
ASCII (all strings considered here are ASCII apart from `«»﻿`). -/
def isPySpace (c : Char) : Bool :=
  c = ' ' || c = '\t' || c = '\n' || c = '\r' || c = '\x0b' || c = '\x0c'

/-- Python `str.strip()`: drop leading and trailing whitespace
(`base_parser.py:87`). -/
def pyStrip (l : List Char) : List Char :=
  ((l.dropWhile isPySpace).reverse.dropWhile isPySpace).reverse

/-- Python `str.strip(chars)` / `str.lstrip(chars)` semantics: `chars` is a
SET of characters; used for `.strip('\n "«»')`, `.lstrip("/jobs")` and
`.rstrip("?from=list_hot")` in the parsers. -/
def pyLstripSet (set : List Char) (l : List Char) : List Char :=
  l.dropWhile (fun c => set.contains c)

def pyRstripSet (set : List Char) (l : List Char) : List Char :=
  (pyLstripSet set l.reverse).reverse

def pyStripSet (set : List Char) (l : List Char) : List Char :=
  pyRstripSet set (pyLstripSet set l)

/-- `SPACE_RE = re.compile(r"[ \t]+")`, substituted by a single space
(`base_parser.py:33,77`).  The `inRun` flag records that the previous
character belonged to a run already replaced. -/
def spaceSubAux : Bool → List Char → List Char
  | _, [] => []
  | inRun, c :: cs =>
    if c = ' ' || c = '\t' then
      if inRun then spaceSubAux true cs else ' ' :: spaceSubAux true cs
    else c :: spaceSubAux false cs

def spaceSub (l : List Char) : List Char := spaceSubAux false l

/-- `LEADING_SPACE_RE = re.compile(r"^ ", re.MULTILINE)`, substituted by the
empty string (`base_parser.py:34,78`): remove one space at the start of every
line. -/
def leadingSpaceAux : List Char → List Char
  | [] => []
  | '\n' :: ' ' :: cs => '\n' :: leadingSpaceAux cs
  | c :: cs => c :: leadingSpaceAux cs

def leadingSpaceSub (l : List Char) : List Char :=
  match l with
  | ' ' :: cs => leadingSpaceAux cs
  | _ => leadingSpaceAux l

/-- Scanner state for `LEADING_HASH_GT_RE = re.compile(r"^[#>]+ ", re.MULTILINE)`
(`base_parser.py:35,79`): `ls` = at a line start, `interior` = inside a line,
`run accRev` = consuming a line-start run of `#`/`>` whose removal is only
committed if a space follows. -/
inductive HgMode where
  | ls
  | interior
  | run (accRev : List Char)

def hashGtAux : HgMode → List Char → List Char
  | .run accRev, [] => accRev.reverse
  | _, [] => []
  | .ls, c :: cs =>
    if c = '#' || c = '>' then hashGtAux (.run [c]) cs
    else if c = '\n' then c :: hashGtAux .ls cs
    else c :: hashGtAux .interior cs
  | .interior, c :: cs =>
    if c = '\n' then c :: hashGtAux .ls cs else c :: hashGtAux .interior cs
  | .run accRev, c :: cs =>
    if c = '#' || c = '>' then hashGtAux (.run (c :: accRev)) cs
    else if c = ' ' then hashGtAux .interior cs
    else if c = '\n' then accRev.reverse ++ c :: hashGtAux .ls cs
    else accRev.reverse ++ c :: hashGtAux .interior cs

def hashGtSub (l : List Char) : List Char := hashGtAux .ls l

/-- `BACKSLASH_DASH_RE = re.compile(r"\\-")`, substituted by `-`
(`base_parser.py:36,80`). -/
def bsDashSub : List Char → List Char
  | '\\' :: '-' :: cs => '-' :: bsDashSub cs
  | c :: cs => c :: bsDashSub cs
  | [] => []

/-- `BACKSLASH_PLUS_RE = re.compile(r"\\\+")`, substituted by `+`
(`base_parser.py:37,81`). -/
def bsPlusSub : List Char → List Char
  | '\\' :: '+' :: cs => '+' :: bsPlusSub cs
  | c :: cs => c :: bsPlusSub cs
  | [] => []

def isDashUnd (c : Char) : Bool := c = '-' || c = '_'

/-- `DASHES_UNDERSCORES_RE = re.compile(r"[-_]{2,}")`, substituted by the
empty string (`base_parser.py:38,82`): a maximal run of two or more `-`/`_`
is removed; an isolated one is kept.  Mode `true` = currently deleting a run. -/
def dashesAux : Bool → List Char → List Char
  | _, [] => []
  | true, c :: cs =>
    if isDashUnd c then dashesAux true cs else c :: dashesAux false cs
  | false, [c] => [c]
  | false, c :: d :: cs =>
    if isDashUnd c && isDashUnd d then dashesAux true cs
    else c :: dashesAux false (d :: cs)

def dashesSub (l : List Char) : List Char := dashesAux false l

/-- Scanner state for `SINGLE_NON_SPACE_RE = re.compile(r"^\S\s*$", re.MULTILINE)`
(`base_parser.py:39,83`).  In `run first wsRev` a non-space character `first`
was seen at a line start and `wsRev` is the (reversed) whitespace read since.
The regex match is `first` plus the longest whitespace prefix whose end
position satisfies `$` (before a `\n`, or end of string); on a successful
match those characters are deleted, and scanning resumes at the last `\n` of
the run (Python `re.sub` resumes after the matched region). -/
inductive SnsMode where
  | ls
  | interior
  | run (first : Char) (wsRev : List Char)

def snsAux : SnsMode → List Char → List Char
  | .run _ _, [] => []
  | _, [] => []
  | .ls, c :: cs =>
    if isPySpace c then
      if c = '\n' then c :: snsAux .ls cs else c :: snsAux .interior cs
    else snsAux (.run c []) cs
  | .interior, c :: cs =>
    if c = '\n' then c :: snsAux .ls cs else c :: snsAux .interior cs
  | .run first wsRev, c :: cs =>
    if isPySpace c then snsAux (.run first (c :: wsRev)) cs
    else if wsRev.contains '\n' then
      -- the match ends just before the last newline of the run
      let w2 := wsRev.takeWhile (fun d => d ≠ '\n')
      if w2.isEmpty then '\n' :: snsAux (.run c []) cs
      else '\n' :: (w2.reverse ++ c :: snsAux .interior cs)
    else
      -- no `$` position inside the run: not a match, emit everything
      first :: (wsRev.reverse ++ c :: snsAux .interior cs)

def snsSub (l : List Char) : List Char := snsAux .ls l

/-- `NEWLINE_SPACE_RE = re.compile("\n\s+")`, substituted by `"\n\n"`
(`base_parser.py:40,84`): a newline followed by a maximal nonempty whitespace
run collapses to a blank line.  Mode `true` = consuming the run. -/
def nlSpAux : Bool → List Char → List Char
  | _, [] => []
  | true, c :: cs =>
    if isPySpace c then nlSpAux true cs else c :: nlSpAux false cs
  | false, '\n' :: c :: cs =>
    if isPySpace c then '\n' :: '\n' :: nlSpAux true cs
    else '\n' :: nlSpAux false (c :: cs)
  | false, c :: cs => c :: nlSpAux false cs

def newlineSpaceSub (l : List Char) : List Char := nlSpAux false l

/-- `ORDERED_LIST_RE = re.compile(r"(\d)\\\.")`, substituted by `r"\1."`
(`base_parser.py:41,85`). -/
def ordListSub : List Char → List Char
  | d :: '\\' :: '.' :: cs =>
    if d.isDigit then d :: '.' :: ordListSub cs
    else d :: ordListSub ('\\' :: '.' :: cs)
  | c :: cs => c :: ordListSub cs
  | [] => []

/-- `description.replace("﻿", "")` (`base_parser.py:86`). -/
def feffSub (l : List Char) : List Char := l.filter (fun c => c ≠ '﻿')

/-- The regex cleanup stages of `BaseParser.convert_html_to_text`
(`base_parser.py:77-87`), i.e. everything after the `html2text` call, in
source order. -/
def cleanupStages (l : List Char) : List Char :=
  pyStrip (feffSub (ordListSub (newlineSpaceSub (snsSub (dashesSub
    (bsPlusSub (bsDashSub (hashGtSub (leadingSpaceSub (spaceSub l))))))))))

def cleanupStagesStr (s : String) : String := String.mk (cleanupStages s.data)

/-- Modelled from the spec: step 1 of the normalization pipeline (§4.4) —
"Convert HTML to an intermediate markdown-like text representation with no
emphasis markers, no image placeholders, no hyperlink targets retained, and
no fixed line-wrap width".  The code realizes this step with the external
`html2text` library (`base_parser.py:70-76`), which is not part of this
repository; this model captures the behaviour relevant here, per the HTML
standard and the library's documented semantics:
* input is parsed as HTML: markup between `<` and `>` is a tag; `<p>`/`</p>`
  delimit paragraphs; other tags carry no text;
* whitespace inside text (including newlines) is insignificant: every
  whitespace run collapses to one space, and paragraph edges are trimmed;
* a backslash in text is markdown-escaped (doubled) on output (the library's
  `escape_md_section`; its line-start list-marker escapes are not modelled —
  no input considered here contains a line-start `-`, `+` or digit-dot);
* paragraphs are emitted separated by blank lines, with a trailing blank line.

Tokens produced by the model tokenizer. -/
inductive H2tTok where
  | text (cs : List Char)
  | pOpen
  | pClose
  | otherTag

/-- Tag classification for the model: the tag name is the token up to the
first whitespace or `/`; `p` opens/closes a paragraph, anything else is
ignored. -/
def tagNameOf (t : List Char) : List Char :=
  t.takeWhile (fun c => !isPySpace c && c ≠ '/')

def classifyTag (t : List Char) : H2tTok :=
  match t with
  | '/' :: r => if tagNameOf r = ['p'] then .pClose else .otherTag
  | r => if tagNameOf r = ['p'] then .pOpen else .otherTag

/-- Tokenizer state: scanning text, or inside a tag (accumulating its body,
reversed). -/
inductive H2tMode where
  | text
  | tag (accRev : List Char)

def h2tToks : H2tMode → List Char → List H2tTok
  | .text, [] => []
  | .tag accRev, [] => [classifyTag accRev.reverse]
  | .text, '<' :: cs => h2tToks (.tag []) cs
  | .text, c :: cs =>
    match h2tToks .text cs with
    | .text t :: ts => .text (c :: t) :: ts
    | ts => .text [c] :: ts
  | .tag accRev, '>' :: cs => classifyTag accRev.reverse :: h2tToks .text cs
  | .tag accRev, c :: cs => h2tToks (.tag (c :: accRev)) cs

/-- Split a token stream into raw paragraphs: `<p>`/`</p>` are paragraph
boundaries, text accumulates, other tags vanish. -/
def h2tSplitParas : List H2tTok → List (List Char)
  | [] => [[]]
  | .text cs :: ts =>
    match h2tSplitParas ts with
    | p :: ps => (cs ++ p) :: ps
    | [] => [cs]
  | .pOpen :: ts => [] :: h2tSplitParas ts
  | .pClose :: ts => [] :: h2tSplitParas ts
  | .otherTag :: ts => h2tSplitParas ts

/-- Markdown-escape backslashes (html2text `escape_md_section`,
backslash-doubling part). -/
def escapeBackslashes : List Char → List Char
  | [] => []
  | '\\' :: cs => '\\' :: '\\' :: escapeBackslashes cs
  | c :: cs => c :: escapeBackslashes cs

/-- Collapse every whitespace run (spaces, tabs, newlines, ...) to a single
space — HTML inline-whitespace semantics. -/
def collapseWsAux : Bool → List Char → List Char
  | _, [] => []
  | inRun, c :: cs =>
    if isPySpace c then
      if inRun then collapseWsAux true cs else ' ' :: collapseWsAux true cs
    else c :: collapseWsAux false cs

def collapseWs (l : List Char) : List Char := collapseWsAux false l

/-- The modelled `html2text.HTML2Text().handle` with `body_width = 0`,
`ignore_emphasis`, `ignore_images`, `ignore_links` (`base_parser.py:70-76`):
escape, collapse and trim each paragraph, drop empty ones, join with blank
lines, end with a blank line. -/
def h2tHandle (l : List Char) : List Char :=
  let paras := (h2tSplitParas (h2tToks .text l)).map
    (fun p => pyStrip (collapseWs (escapeBackslashes p)))
  let paras := paras.filter (fun p => !p.isEmpty)
  match paras with
  | [] => []
  | ps => List.intercalate ['\n', '\n'] ps ++ ['\n', '\n']

/-- `BaseParser.convert_html_to_text` (`base_parser.py:60-89`): the html2text
stage followed by the regex cleanup stages and the final strip. -/
def convert_html_to_text (html : String) : String :=
  String.mk (cleanupStages (h2tHandle html.data))

/-- Fields extracted by BeautifulSoup from one `li.list-jobs__item` of a
Djinni listing page (`djinni_parser.py:71-78`); `company`/`title` are the raw
`.text` values, `href` the raw link target, and `published_at` the value of
`datetime.strptime(dt_str, "%H:%M %d.%m.%Y").date()` (date parsing is
abstracted into the environment). -/
structure DjinniItem where
  company : String
  published_at : Int
  title : String
  href : String
deriving Repr, DecidableEq

/-- `DjinniParser.JOBS_URL` (`djinni_parser.py:41`). -/
def JOBS_URL : String := "https://djinni.co/jobs/"

/-- The job dict built for one listing item (`djinni_parser.py:73-89`),
including `.strip('\n "«»')` on company/title and
`url = JOBS_URL + href.lstrip("/jobs")`. -/
def djinniJobOfItem (category : String) (it : DjinniItem) : Job :=
  { category := category
    company := String.mk (pyStripSet "\n \"«»".data it.company.data)
    published_at := it.published_at
    source := "djinni"
    title := String.mk (pyStripSet "\n \"«»".data it.title.data)
    url := JOBS_URL ++ String.mk (pyLstripSet "/jobs".data it.href.data)
    description := none }

/-- One successful HTTP response for a Djinni listing page: `redirected`
models `response.url == self.JOBS_URL` (the out-of-range redirect heuristic,
`djinni_parser.py:63`), `items` the extracted listing items. -/
structure DjinniResp where
  redirected : Bool
  items : List DjinniItem

/-- The retry loop of `DjinniParser.__get_jobs_from_page`
(`djinni_parser.py:56-102`): `fetch a` is the outcome of the `a`-th
`requests.get` attempt (`Except.error` = `requests.RequestException`,
including the `raise_for_status` path).  On success: `[]` if redirected to
the base listing URL, otherwise the extracted jobs; after `MAX_RETRIES`
failed attempts: `[]`. -/
def djinniGetJobsFromPageAux (category : String)
    (fetch : Nat → Except Unit DjinniResp) : Nat → Nat → List Job
  | 0, _ => []
  | retries + 1, attempt =>
    match fetch attempt with
    | .ok resp =>
      if resp.redirected then []
      else resp.items.map (djinniJobOfItem category)
    | .error _ => djinniGetJobsFromPageAux category fetch retries (attempt + 1)

def djinni_get_jobs_from_page (category : String)
    (fetch : Nat → Except Unit DjinniResp) : List Job :=
  djinniGetJobsFromPageAux category fetch MAX_RETRIES 0

/-- `DjinniParser.__get_earliest_date` (`djinni_parser.py:104-114`):
`min(job["published_at"] for job in jobs)`.  The code only calls it on a
nonempty list (Python `min` raises on an empty one); the `[]` case here is
junk. -/
def getEarliestDate : List Job → Int
  | [] => 0
  | j :: js => js.foldl (fun m k => min m k.published_at) j.published_at

/-- The `while True` pagination loop of `DjinniParser.get_jobs_by_category`
(`djinni_parser.py:130-147`), with `pageJobs p` the result of
`__get_jobs_from_page(category, p)`.  Returns the collected in-window jobs
together with the number of page fetches performed.  The Python loop is
unbounded; `fuel` bounds the recursion and every claim below supplies enough
of it for the loop to reach its `break`. -/
def djinniLoop (pageJobs : Nat → List Job) (s e : Int) : Nat → Nat → List Job × Nat
  | 0, _ => ([], 0)
  | fuel + 1, page =>
    let pj := pageJobs page
    if pj.isEmpty then ([], 1)
    else if getEarliestDate pj < s then (pj.filter (inWindow s e), 1)
    else
      let r := djinniLoop pageJobs s e fuel (page + 1)
      (pj.filter (inWindow s e) ++ r.1, r.2 + 1)

/-- The page-listing function seen by the discovery loop: page number `p`
↦ `__get_jobs_from_page(category, p)`, with `env p a` the outcome of attempt
`a` at fetching page `p`. -/
def djinniPageJobs (category : String)
    (env : Nat → Nat → Except Unit DjinniResp) (p : Nat) : List Job :=
  djinni_get_jobs_from_page category (env p)

/-- `DjinniParser.get_jobs_by_category` (`djinni_parser.py:116-147`):
paginate from page 1, filter each page to the window, stop on an empty page
or when the earliest date of a page drops below `start_date`. -/
def djinni_get_jobs_by_category (category : String)
    (env : Nat → Nat → Except Unit DjinniResp) (s e : Int) (fuel : Nat) :
    List Job × Nat :=
  djinniLoop (djinniPageJobs category env) s e fuel 1

/-- Environment outcome for `DjinniParser.get_job_description`
(`djinni_parser.py:149-171`): either the request raises (network failure or
non-2xx status via `raise_for_status`), or it yields the rendered
`div.mb-4` tags of the posting page (as `str(tag)` strings). -/
inductive DjinniDescResp where
  | netError
  | page (divs : List String)

/-- Python `str` of a list of strings as produced by `str(div_tags)`
(`djinni_parser.py:169`): `"[" + ", ".join(...) + "]"`. -/
def pyStrList (xs : List String) : String :=
  "[" ++ String.intercalate ", " xs ++ "]"

/-- `DjinniParser.get_job_description` (`djinni_parser.py:149-171`): raises
(`Except.error`) on a request failure; otherwise normalizes
`str(div_tags[:-1])`.  Nothing is ever caught here, and an empty `find_all`
selection yields `str([]) = "[]"`, not an error. -/
def djinni_get_job_description (env : String → DjinniDescResp) (url : String) :
    Except Unit String :=
  match env url with
  | .netError => .error ()
  | .page divs => .ok (convert_html_to_text (pyStrList divs.dropLast))

/-- Fields extracted from one `li.l-vacancy` of a DOU listing fragment
(`dou_parser.py:65-71`): raw `.text` values for title/company, the raw
`href`, and the `strptime(date_str, "%d %B %Y").date()` value. -/
structure DouItem where
  title : String
  href : String
  company : String
  published_at : Int
deriving Repr, DecidableEq

/-- The job dict built for one DOU listing item (`dou_parser.py:66-82`),
including `.strip('\n "«»')` on title/company and
`url = href.rstrip("?from=list_hot")`. -/
def douJobOfItem (category : String) (it : DouItem) : Job :=
  { category := category
    company := String.mk (pyStripSet "\n \"«»".data it.company.data)
    published_at := it.published_at
    source := "dou"
    title := String.mk (pyStripSet "\n \"«»".data it.title.data)
    url := String.mk (pyRstripSet "?from=list_hot".data it.href.data)
    description := none }

/-- One response of the DOU `xhr-load` pagination POST
(`dou_parser.py:118-135`): the items extracted by `__get_jobs_from_page`
from `response_data["html"]` and the `response_data["last"]` flag. -/
structure DouXhr where
  items : List DouItem
  last : Bool

/-- The cursor loop of `DouParser.__get_all_jobs_by_category`
(`dou_parser.py:115-137`): iteration `i` posts cursor `count = 40*i`;
`pages i = Except.error` models a `requests.RequestException` raised by that
POST, which aborts the whole call.  The loop is unbounded in Python; `fuel`
bounds it here. -/
def douCatLoop (category : String) (pages : Nat → Except Unit DouXhr) :
    Nat → Nat → Except Unit (List Job)
  | 0, _ => .ok []
  | fuel + 1, i =>
    match pages i with
    | .error _ => .error ()
    | .ok r =>
      let js := r.items.map (douJobOfItem category)
      if r.last then .ok js
      else
        match douCatLoop category pages fuel (i + 1) with
        | .error _ => .error ()
        | .ok rest => .ok (js ++ rest)

/-- `DouParser.__get_all_jobs_by_category` (`dou_parser.py:86-141`): the
initial language/CSRF requests and every paginated POST run under one
`try`; any `requests.RequestException` is caught and the whole function
returns `[]`.  `pages 0 = Except.error` also covers a failure of the
initial requests. -/
def dou_get_all_jobs_by_category (category : String)
    (pages : Nat → Except Unit DouXhr) (fuel : Nat) : List Job :=
  match douCatLoop category pages fuel 0 with
  | .ok js => js
  | .error _ => []

/-- `DouParser.get_jobs_by_category` (`dou_parser.py:143-163`): the list
comprehension filtering all of the category's jobs to the window. -/
def dou_get_jobs_by_category (category : String)
    (pages : Nat → Except Unit DouXhr) (s e : Int) (fuel : Nat) : List Job :=
  (dou_get_all_jobs_by_category category pages fuel).filter (inWindow s e)

/-- Environment outcome for `DouParser.get_job_description`
(`dou_parser.py:165-199`): a request failure (`requests.RequestException`,
caught by the function), a page without the expected markup (one of the
`find(...)` calls yields `None`, so the subsequent attribute access raises
an uncaught `AttributeError`), or the rendered `str(div_tag)` after the
four `extract()` calls. -/
inductive DouDescResp where
  | netError
  | badMarkup
  | page (html : String)

/-- `DouParser.get_job_description` (`dou_parser.py:165-199`): returns the
normalized description on success, returns the EMPTY STRING when the request
raises (`except requests.RequestException: ... return ""`), and raises only
in the missing-markup case. -/
def dou_get_job_description (env : String → DouDescResp) (url : String) :
    Except Unit String :=
  match env url with
  | .netError => .ok ""
  | .badMarkup => .error ()
  | .page html => .ok (convert_html_to_text html)

/-- The retry loop of `BaseParser.get_all_jobs` (`base_parser.py:131-152`).
`fut` is the future of the one `executor.submit(self.get_job_description,
job["url"])` call (`base_parser.py:125`): a `concurrent.futures` future runs
its callable ONCE and caches the outcome, and every `future.result()` call
re-raises the same stored exception without re-running it — so each of the
up-to-`MAX_RETRIES` iterations of the `while` loop observes the same `fut`.
`some d` = the description was assigned, `none` = the `jobs.remove(job)`
branch was reached. -/
def retryLoop (fut : Except Unit String) : Nat → Option String
  | 0 => none
  | r + 1 =>
    match fut with
    | .ok d => some d
    | .error _ => retryLoop fut r

/-- `BaseParser.get_all_jobs` (`base_parser.py:104-154`).
`catJobs c` is `self.get_jobs_by_category(c, start_date, end_date)`;
`getDesc u` the (deterministic) outcome of one `get_job_description(u)`
invocation.  The first component is the returned list: discovery collects
`jobs` across categories, one future per job is submitted, and a job stays
(with its `description` key set) iff its retry loop succeeds; otherwise
`jobs.remove(job)` drops exactly that posting (postings are assumed pairwise
distinct, per the spec's no-duplicates invariant — `list.remove` removes the
first equal element).  The second component is the ghost instrumentation: the
urls passed to `get_job_description`, in submission order — the only place
the method is invoked is `executor.submit`, once per posting. -/
def get_all_jobs (catJobs : String → List Job) (cats : List String)
    (getDesc : String → Except Unit String) : List Job × List String :=
  let jobs := (cats.map catJobs).flatten
  (jobs.filterMap (fun j =>
      match retryLoop (getDesc j.url) MAX_RETRIES with
      | some d => some { j with description := some d }
      | none => none),
   jobs.map (fun j => j.url))

/-- The keys of `DjinniParser.CATEGORY_URL_MAP` (`djinni_parser.py:19-40`),
in insertion order (Python dict iteration order). -/
def djinniCategories : List String :=
  ["Android", "C / C++ / Embedded", "C# / .NET", "Data Engineer",
   "Data Science", "DevOps", "Flutter", "Fullstack", "Golang", "Java",
   "JavaScript / Front-End", "Node.js", "PHP", "Python", "React Native",
   "Ruby", "Rust", "Scala", "Software Architect", "iOS"]

/-- The keys of `DouParser.CATEGORY_URL_MAP` (`dou_parser.py:20-44`). -/
def douCategories : List String :=
  [".NET", "AI/ML", "Android", "Architect", "Big Data", "Blockchain", "C++",
   "Data Engineer", "Data Science", "DevOps", "Embedded", "Flutter",
   "Front End", "Golang", "Java", "Node.js", "PHP", "Python", "React Native",
   "Ruby", "Rust", "Scala", "iOS/macOS"]

/-- `get_all_jobs` as run by a `DjinniParser` instance: categories from its
map, discovery via `djinni_get_jobs_by_category`, descriptions via
`djinni_get_job_description`. -/
def djinni_get_all_jobs (env : String → Nat → Nat → Except Unit DjinniResp)
    (denv : String → DjinniDescResp) (s e : Int) (fuel : Nat) :
    List Job × List String :=
  get_all_jobs (fun c => (djinni_get_jobs_by_category c (env c) s e fuel).1)
    djinniCategories (djinni_get_job_description denv)

/-- `get_all_jobs` as run by a `DouParser` instance. -/
def dou_get_all_jobs (env : String → Nat → Except Unit DouXhr)
    (denv : String → DouDescResp) (s e : Int) (fuel : Nat) :
    List Job × List String :=
  get_all_jobs (fun c => dou_get_jobs_by_category c (env c) s e fuel)
    douCategories (dou_get_job_description denv)

/-! ## Helper lemmas -/

theorem dropWhile_dropWhile (p : Char → Bool) (l : List Char) :
    (l.dropWhile p).dropWhile p = l.dropWhile p := by
  induction l with
  | nil => rfl
  | cons c cs ih =>
    by_cases h : p c
    · simp [List.dropWhile, h, ih]
    · simp [List.dropWhile, h]

theorem dropWhile_fixed_of_isPrefix {p : Char → Bool} {l r : List Char}
    (hpre : r <+: l) (hl : l.dropWhile p = l) : r.dropWhile p = r := by
  cases r with
  | nil => rfl
  | cons c cs =>
    cases l with
    | nil => simp at hpre
    | cons d ds =>
      obtain ⟨t, ht⟩ := hpre
      have hcd : c = d := by
        have := congrArg (fun xs => List.head? xs) ht
        simpa using this
      subst hcd
      by_cases h : p c
      · rw [List.dropWhile_cons_of_pos h] at hl
        have hbad : (ds.dropWhile p).length = ds.length + 1 := by rw [hl]; rfl
        have hle : (ds.dropWhile p).length ≤ ds.length :=
          (List.dropWhile_sublist p).length_le
        omega
      · exact List.dropWhile_cons_of_neg h

/-- `pyStrip` output starts with no strippable character. -/
theorem dropWhile_pyStrip (l : List Char) :
    (pyStrip l).dropWhile isPySpace = pyStrip l := by
  unfold pyStrip
  set m := l.dropWhile isPySpace with hm
  have hfix : m.dropWhile isPySpace = m := by rw [hm]; exact dropWhile_dropWhile _ _
  have hpre : (m.reverse.dropWhile isPySpace).reverse <+: m := by
    have hsuf : m.reverse.dropWhile isPySpace <:+ m.reverse := List.dropWhile_suffix _
    have := List.reverse_prefix.mpr (by simpa using hsuf)
    simpa using this
  exact dropWhile_fixed_of_isPrefix hpre hfix

/-- Python `strip()` is idempotent. -/
theorem pyStrip_idem (l : List Char) : pyStrip (pyStrip l) = pyStrip l := by
  show (((pyStrip l).dropWhile isPySpace).reverse.dropWhile isPySpace).reverse = pyStrip l
  rw [dropWhile_pyStrip]
  unfold pyStrip
  rw [List.reverse_reverse, dropWhile_dropWhile]

/-- A string is already stripped: Python `s.strip() == s`. -/
def isStripped (s : String) : Prop := String.mk (pyStrip s.data) = s

theorem isStripped_mk_pyStrip (l : List Char) : isStripped (String.mk (pyStrip l)) := by
  unfold isStripped
  simp [pyStrip_idem]

/-- Every `convert_html_to_text` output is stripped (the pipeline ends with
`description.strip()`). -/
theorem convert_isStripped (html : String) : isStripped (convert_html_to_text html) := by
  unfold convert_html_to_text cleanupStages
  exact isStripped_mk_pyStrip _

theorem isStripped_empty : isStripped "" := by
  unfold isStripped
  rfl

/-- Membership in the jobs collected by the Djinni pagination loop implies
membership in some window-filtered page. -/
theorem mem_djinniLoop_window {pageJobs : Nat → List Job} {s e : Int}
    {fuel page : Nat} {j : Job}
    (h : j ∈ (djinniLoop pageJobs s e fuel page).1) :
    s ≤ j.published_at ∧ j.published_at ≤ e := by
  induction fuel generalizing page with
  | zero => simp [djinniLoop] at h
  | succ n ih =>
    unfold djinniLoop at h
    by_cases hemp : (pageJobs page).isEmpty
    · simp [hemp] at h
    · by_cases hearly : getEarliestDate (pageJobs page) < s
      · simp [hemp, hearly, List.mem_filter, inWindow] at h
        exact h.2
      · simp [hemp, hearly, List.mem_filter, inWindow] at h
        rcases h with ⟨_, hw⟩ | hrest
        · exact hw
        · exact ih hrest

/-- Membership in a `get_all_jobs` result comes from a discovered job with
only the description changed. -/
theorem mem_get_all_jobs {catJobs : String → List Job} {cats : List String}
    {getDesc : String → Except Unit String} {j : Job}
    (h : j ∈ (get_all_jobs catJobs cats getDesc).1) :
    ∃ j0 ∈ (cats.map catJobs).flatten, ∃ d,
      retryLoop (getDesc j0.url) MAX_RETRIES = some d ∧
      j = { j0 with description := some d } := by
  unfold get_all_jobs at h
  simp only [List.mem_filterMap] at h
  obtain ⟨j0, hj0, hmatch⟩ := h
  refine ⟨j0, hj0, ?_⟩
  cases hr : retryLoop (getDesc j0.url) MAX_RETRIES with
  | none => rw [hr] at hmatch; simp at hmatch
  | some d =>
    rw [hr] at hmatch
    simp at hmatch
    exact ⟨d, rfl, hmatch.symm⟩

/-- The retry loop of `get_all_jobs` succeeds iff the single cached fetch
outcome was a success. -/
theorem retryLoop_ok (d : String) (n : Nat) :
    retryLoop (.ok d) (n + 1) = some d := rfl

theorem retryLoop_error (n : Nat) : retryLoop (.error ()) n = none := by
  induction n with
  | zero => rfl
  | succ k ih => simpa [retryLoop] using ih

/-- If the `N`-th page (counting from the loop's start page `p`) is the first
whose earliest date drops below `start_date`, and no earlier page is empty,
the Djinni pagination loop performs exactly `N` page fetches and returns the
concatenation of the window-filtered pages. -/
theorem djinniLoop_stops (pageJobs : Nat → List Job) (s e : Int) :
    ∀ (n p fuel : Nat), 1 ≤ n → n ≤ fuel →
    (∀ k, p ≤ k → k < p + n → (pageJobs k).isEmpty = false) →
    (∀ k, p ≤ k → k + 1 < p + n → ¬ getEarliestDate (pageJobs k) < s) →
    getEarliestDate (pageJobs (p + n - 1)) < s →
    djinniLoop pageJobs s e fuel p =
      (((List.range n).map (fun i => (pageJobs (p + i)).filter (inWindow s e))).flatten, n) := by
  intro n
  induction n with
  | zero => intro p fuel h1; omega
  | succ m ih =>
    intro p fuel h1 hfuel hne hmin hlast
    obtain ⟨f, rfl⟩ : ∃ f, fuel = f + 1 := ⟨fuel - 1, by omega⟩
    have hnep : (pageJobs p).isEmpty = false := hne p (le_refl p) (by omega)
    rcases Nat.eq_zero_or_pos m with hm | hm
    · subst hm
      have hlt : getEarliestDate (pageJobs p) < s := by simpa using hlast
      simp [djinniLoop, hnep, hlt, List.range_succ]
    · have hnotlt : ¬ getEarliestDate (pageJobs p) < s := hmin p (le_refl p) (by omega)
      have hrec := ih (p + 1) f (by omega) (by omega)
        (fun k hk1 hk2 => hne k (by omega) (by omega))
        (fun k hk1 hk2 => hmin k (by omega) (by omega))
        (by
          have harg : p + 1 + m - 1 = p + (m + 1) - 1 := by omega
          rw [harg]; exact hlast)
      have harg : ∀ i : Nat, p + 1 + i = p + (i + 1) := by intro i; omega
      simp only [djinniLoop, hnep, hnotlt, if_false, Bool.false_eq_true, hrec,
        List.range_succ_eq_map, List.map_cons, List.map_map, List.flatten_cons]
      congr 1
      simp only [Nat.add_zero]
      congr 1
      congr 1
      apply List.map_congr_left
      intro i _
      simp only [Function.comp, Nat.succ_eq_add_one, harg i]

/-- `inWindow` is unsatisfiable for an inverted window. -/
theorem inWindow_of_gt {s e : Int} (h : e < s) (j : Job) : inWindow s e j = false := by
  unfold inWindow
  by_cases h1 : s ≤ j.published_at
  · by_cases h2 : j.published_at ≤ e
    · omega
    · simp [h1, h2]
  · simp [h1]

/-- A successful retry loop over a Dou description outcome yields a stripped
string (either `""` from the swallowed request error, or a
`convert_html_to_text` result, which ends in `strip()`). -/
theorem dou_desc_stripped (denv : String → DouDescResp) (u d : String)
    (h : retryLoop (dou_get_job_description denv u) MAX_RETRIES = some d) :
    isStripped d := by
  unfold dou_get_job_description at h
  cases henv : denv u with
  | netError =>
    rw [henv] at h
    have : d = "" := by simpa [MAX_RETRIES, retryLoop] using h.symm
    rw [this]; exact isStripped_empty
  | badMarkup =>
    rw [henv] at h
    rw [retryLoop_error] at h
    cases h
  | page html =>
    rw [henv] at h
    have : d = convert_html_to_text html := by
      simpa [MAX_RETRIES, retryLoop] using h.symm
    rw [this]; exact convert_isStripped html

/-- Likewise for a Djinni description outcome. -/
theorem djinni_desc_stripped (env : String → DjinniDescResp) (u d : String)
    (h : retryLoop (djinni_get_job_description env u) MAX_RETRIES = some d) :
    isStripped d := by
  unfold djinni_get_job_description at h
  cases henv : env u with
  | netError =>
    rw [henv] at h
    rw [retryLoop_error] at h
    cases h
  | page divs =>
    rw [henv] at h
    have : d = convert_html_to_text (pyStrList divs.dropLast) := by
      simpa [MAX_RETRIES, retryLoop] using h.symm
    rw [this]; exact convert_isStripped _

/-! ## Concrete fixtures used by the claim witnesses and counterexamples -/

/-- A Djinni listing item published on day 5. -/
def exItem : DjinniItem :=
  { company := "Acme", published_at := 5, title := "Dev", href := "/jobs/1" }

/-- Page 1 holds `exItem`; page 2 redirects to the base listing URL (out of
range). -/
def exEnv : Nat → Nat → Except Unit DjinniResp
  | 1, _ => .ok { redirected := false, items := [exItem] }
  | _, _ => .ok { redirected := true, items := [] }

/-- The C4 scenario page: postings dated 2024-05-03, 2024-05-02 and
2024-04-29 on page 1. -/
def c4itemA : DjinniItem :=
  { company := "A", published_at := 20240503, title := "tA", href := "/jobs/1" }

def c4itemB : DjinniItem :=
  { company := "B", published_at := 20240502, title := "tB", href := "/jobs/2" }

def c4itemC : DjinniItem :=
  { company := "C", published_at := 20240429, title := "tC", href := "/jobs/3" }

def c4env : Nat → Nat → Except Unit DjinniResp
  | 1, _ => .ok { redirected := false, items := [c4itemA, c4itemB, c4itemC] }
  | _, _ => .ok { redirected := false, items := [] }

/-- A single Djinni page dated 2024-05-02, for the inverted-window run. -/
def c7env : Nat → Nat → Except Unit DjinniResp
  | 1, _ => .ok { redirected := false, items := [c4itemB] }
  | _, _ => .ok { redirected := false, items := [] }

/-- A DOU listing item. -/
def exDouItem : DouItem :=
  { title := "Dev", href := "https://jobs.dou.ua/companies/x/vacancies/1/",
    company := "Acme", published_at := 5 }

/-- A DOU environment: the `.NET` category has one posting, all others are
empty, every category's first response is the last page. -/
def exDouEnv : String → Nat → Except Unit DouXhr :=
  fun c _ =>
    if c = ".NET" then .ok { items := [exDouItem], last := true }
    else .ok { items := [], last := true }

/-- Two discovered postings for the fetch-batch run: the fetch of `u1`
always fails, the fetch of `u2` always succeeds. -/
def exJobFail : Job :=
  { category := "Python", company := "Acme", published_at := 5,
    source := "djinni", title := "Dev", url := "u1" }

def exJobOk : Job :=
  { category := "Python", company := "Bcme", published_at := 6,
    source := "djinni", title := "Ops", url := "u2" }

def exFetch : String → Except Unit String :=
  fun u => if u = "u2" then .ok "text" else .error ()

/-! ## Claims -/

/-- C1: for every start_date and end_date and every posting in the list
returned by `BaseParser.get_all_jobs` (and by each parser's
`get_jobs_by_category`), the posting's `published_at` satisfies
`start_date ≤ published_at ≤ end_date`. -/
theorem c1_window_filter_correct :
    (∀ (category : String) (env : Nat → Nat → Except Unit DjinniResp)
       (s e : Int) (fuel : Nat) (j : Job),
       j ∈ (djinni_get_jobs_by_category category env s e fuel).1 →
       s ≤ j.published_at ∧ j.published_at ≤ e) ∧
    (∀ (category : String) (pages : Nat → Except Unit DouXhr)
       (s e : Int) (fuel : Nat) (j : Job),
       j ∈ dou_get_jobs_by_category category pages s e fuel →
       s ≤ j.published_at ∧ j.published_at ≤ e) ∧
    (∀ (env : String → Nat → Nat → Except Unit DjinniResp)
       (denv : String → DjinniDescResp) (s e : Int) (fuel : Nat) (j : Job),
       j ∈ (djinni_get_all_jobs env denv s e fuel).1 →
       s ≤ j.published_at ∧ j.published_at ≤ e) ∧
    (∀ (env : String → Nat → Except Unit DouXhr)
       (denv : String → DouDescResp) (s e : Int) (fuel : Nat) (j : Job),
       j ∈ (dou_get_all_jobs env denv s e fuel).1 →
       s ≤ j.published_at ∧ j.published_at ≤ e) := by
  refine ⟨?_, ?_, ?_, ?_⟩
  · intro category env s e fuel j hj
    exact mem_djinniLoop_window hj
  · intro category pages s e fuel j hj
    unfold dou_get_jobs_by_category at hj
    have := List.mem_filter.1 hj
    simpa [inWindow, decide_eq_true_eq] using this.2
  · intro env denv s e fuel j hj
    obtain ⟨j0, hj0, d, _, rfl⟩ := mem_get_all_jobs hj
    simp only [List.mem_flatten, List.mem_map] at hj0
    obtain ⟨l, ⟨c, _, rfl⟩, hl⟩ := hj0
    simpa using mem_djinniLoop_window hl
  · intro env denv s e fuel j hj
    obtain ⟨j0, hj0, d, _, rfl⟩ := mem_get_all_jobs hj
    simp only [List.mem_flatten, List.mem_map] at hj0
    obtain ⟨l, ⟨c, _, rfl⟩, hl⟩ := hj0
    unfold dou_get_jobs_by_category at hl
    have := List.mem_filter.1 hl
    simpa [inWindow, decide_eq_true_eq] using this.2

theorem c1_witness : (0 : Int) ≤ 5 ∧ (5 : Int) ≤ 10 :=
  c1_window_filter_correct.1 "Python" exEnv 0 10 3
    (djinniJobOfItem "Python" exItem) (by decide)

/-- C2 counterexample: the claim "description is a non-empty string" fails.
With a DOU environment whose single discovered posting's description request
raises a network error, `DouParser.get_job_description` swallows the
exception and returns `""` (`dou_parser.py:197-199`), so `get_all_jobs`
keeps the posting with an EMPTY description. -/
theorem c2_counterexample :
    (dou_get_all_jobs exDouEnv (fun _ => .netError) 0 10 1).1 =
      [{ douJobOfItem ".NET" exDouItem with description := some "" }] := by
  decide

/-- C2 (amended): every posting returned by `get_all_jobs` carries a
description with no leading or trailing whitespace, but it can be the empty
string (DOU network failures produce `""`), so non-emptiness does not hold. -/
theorem c2_descriptions_stripped :
    (∀ (env : String → Nat → Except Unit DouXhr)
       (denv : String → DouDescResp) (s e : Int) (fuel : Nat) (j : Job),
       j ∈ (dou_get_all_jobs env denv s e fuel).1 →
       ∃ d, j.description = some d ∧ isStripped d) ∧
    (∀ (env : String → Nat → Nat → Except Unit DjinniResp)
       (denv : String → DjinniDescResp) (s e : Int) (fuel : Nat) (j : Job),
       j ∈ (djinni_get_all_jobs env denv s e fuel).1 →
       ∃ d, j.description = some d ∧ isStripped d) := by
  constructor
  · intro env denv s e fuel j hj
    obtain ⟨j0, _, d, hd, rfl⟩ := mem_get_all_jobs hj
    exact ⟨d, rfl, dou_desc_stripped denv j0.url d hd⟩
  · intro env denv s e fuel j hj
    obtain ⟨j0, _, d, hd, rfl⟩ := mem_get_all_jobs hj
    exact ⟨d, rfl, djinni_desc_stripped denv j0.url d hd⟩

theorem c2_witness :
    ∃ d, ({ douJobOfItem ".NET" exDouItem with description := some "" } : Job).description
        = some d ∧ isStripped d :=
  c2_descriptions_stripped.1 exDouEnv (fun _ => .netError) 0 10 1
    { douJobOfItem ".NET" exDouItem with description := some "" }
    (by rw [c2_counterexample]; exact List.mem_singleton.mpr rfl)

/-- C3: evaluating `get_all_jobs` on a batch of M = 2 postings of which
K = 1 always fails description fetch.  The result has M − K = 1 element, but
the ghost invocation log (second component) shows `get_job_description` was
invoked exactly ONCE for the dropped posting, not `MAX_RETRIES = 3` times:
`executor.submit` runs the callable once, and each iteration of the retry
loop merely re-reads `future.result()`, which re-raises the cached exception
(`base_parser.py:123-152`). -/
theorem c3_single_invocation_eval :
    get_all_jobs (fun c => if c = "Python" then [exJobFail, exJobOk] else [])
        ["Python"] exFetch =
      ([{ exJobOk with description := some "text" }], ["u1", "u2"]) := by
  decide

/-- C5 counterexample: the claim "raises a FetchError on network failure …
never silently returns a value … for every SourceParser implementation"
fails: `DouParser.get_job_description` catches the request exception and
returns `""` (`dou_parser.py:197-199`). -/
theorem c5_counterexample :
    dou_get_job_description (fun _ => .netError) "https://jobs.dou.ua/x" =
      .ok "" := rfl

/-- C5 (amended): `DjinniParser.get_job_description` does propagate an
exception on network failure / non-2xx status, but `DouParser` returns the
empty string instead of raising on network failure (it raises only in the
missing-markup case), and `DjinniParser` silently returns the normalized
rendering `"[]"` of an empty tag selection when the expected markup is
absent. -/
theorem c5_fetch_error_behavior :
    (∀ (env : String → DjinniDescResp) (url : String), env url = .netError →
       djinni_get_job_description env url = .error ()) ∧
    (∀ (denv : String → DouDescResp) (url : String), denv url = .netError →
       dou_get_job_description denv url = .ok "") ∧
    (∀ (denv : String → DouDescResp) (url : String), denv url = .badMarkup →
       dou_get_job_description denv url = .error ()) ∧
    (∀ (env : String → DjinniDescResp) (url : String), env url = .page [] →
       djinni_get_job_description env url = .ok "[]") := by
  refine ⟨?_, ?_, ?_, ?_⟩
  · intro env url h
    unfold djinni_get_job_description
    rw [h]
  · intro denv url h
    unfold dou_get_job_description
    rw [h]
  · intro denv url h
    unfold dou_get_job_description
    rw [h]
  · intro env url h
    unfold djinni_get_job_description
    rw [h]
    exact congrArg Except.ok (by decide)

theorem c5_witness :
    djinni_get_job_description (fun _ => .netError) "https://djinni.co/jobs/1" = .error () ∧
    dou_get_job_description (fun _ => .netError) "https://jobs.dou.ua/x/1" = .ok "" ∧
    dou_get_job_description (fun _ => .badMarkup) "https://jobs.dou.ua/x/2" = .error () ∧
    djinni_get_job_description (fun _ => .page []) "https://djinni.co/jobs/2" = .ok "[]" :=
  ⟨c5_fetch_error_behavior.1 _ _ rfl, c5_fetch_error_behavior.2.1 _ _ rfl,
   c5_fetch_error_behavior.2.2.1 _ _ rfl, c5_fetch_error_behavior.2.2.2 _ _ rfl⟩

/-- C4: for a source whose pages monotonically decrease in date, if the N-th
page is the first whose earliest `published_at` is strictly below
`start_date`, `get_jobs_by_category` fetches exactly N pages (not N + 1) and
returns the union of the window-filtered pages; in particular, for the
window 2024-05-01..2024-05-03 with page 1 containing postings dated 05-03,
05-02 and 04-29, it returns exactly the two postings dated 05-03 and 05-02
after a single page fetch. -/
theorem c4_discovery_termination :
    (∀ (category : String) (env : Nat → Nat → Except Unit DjinniResp)
       (s e : Int) (N fuel : Nat),
       1 ≤ N → N ≤ fuel →
       (∀ k, 1 ≤ k → k ≤ N → (djinniPageJobs category env k).isEmpty = false) →
       (∀ k, 1 ≤ k → k < N → ¬ getEarliestDate (djinniPageJobs category env k) < s) →
       getEarliestDate (djinniPageJobs category env N) < s →
       djinni_get_jobs_by_category category env s e fuel =
         (((List.range N).map
             (fun i => (djinniPageJobs category env (1 + i)).filter (inWindow s e))).flatten,
          N)) ∧
    djinni_get_jobs_by_category "Python" c4env 20240501 20240503 5 =
      ([djinniJobOfItem "Python" c4itemA, djinniJobOfItem "Python" c4itemB], 1) := by
  constructor
  · intro category env s e N fuel h1 hfuel hne hmin hlast
    unfold djinni_get_jobs_by_category
    have := djinniLoop_stops (djinniPageJobs category env) s e N 1 fuel h1 hfuel
      (fun k hk1 hk2 => hne k hk1 (by omega))
      (fun k hk1 hk2 => hmin k hk1 (by omega))
      (by
        have harg : 1 + N - 1 = N := by omega
        rw [harg]; exact hlast)
    exact this
  · decide

theorem c4_witness :
    djinni_get_jobs_by_category "Python" c4env 20240501 20240503 5 =
      (((List.range 1).map
          (fun i => (djinniPageJobs "Python" c4env (1 + i)).filter
            (inWindow 20240501 20240503))).flatten,
       1) :=
  c4_discovery_termination.1 "Python" c4env 20240501 20240503 1 5
    (by omega) (by omega)
    (fun k hk1 hk2 => by
      have hk : k = 1 := by omega
      subst hk; decide)
    (fun k hk1 hk2 => by omega)
    (by decide)

/-- C6: for every category and page, `DjinniParser.__get_jobs_from_page`
returns an empty list in both terminal situations — when the site redirects
to the base listing URL (page out of range) and when the internal retry loop
exhausts all MAX_RETRIES attempts — so the two conditions are externally
indistinguishable to the caller. -/
theorem c6_empty_on_terminal :
    (∀ (category : String) (fetch : Nat → Except Unit DjinniResp),
       (∀ a, a < MAX_RETRIES → fetch a = .error ()) →
       djinni_get_jobs_from_page category fetch = []) ∧
    (∀ (category : String) (fetch : Nat → Except Unit DjinniResp)
       (resp : DjinniResp),
       fetch 0 = .ok resp → resp.redirected = true →
       djinni_get_jobs_from_page category fetch = []) := by
  constructor
  · intro category fetch h
    have h0 := h 0 (by decide)
    have h1 := h 1 (by decide)
    have h2 := h 2 (by decide)
    unfold djinni_get_jobs_from_page MAX_RETRIES
    unfold djinniGetJobsFromPageAux
    rw [h0]
    unfold djinniGetJobsFromPageAux
    rw [h1]
    unfold djinniGetJobsFromPageAux
    rw [h2]
    rfl
  · intro category fetch resp h0 hred
    unfold djinni_get_jobs_from_page MAX_RETRIES
    unfold djinniGetJobsFromPageAux
    rw [h0]
    simp [hred]

theorem c6_witness :
    djinni_get_jobs_from_page "Python" (fun _ => .error ()) = [] ∧
    djinni_get_jobs_from_page "Python"
      (fun _ => .ok { redirected := true, items := [exItem] }) = [] :=
  ⟨c6_empty_on_terminal.1 "Python" (fun _ => .error ()) (fun _ _ => rfl),
   c6_empty_on_terminal.2 "Python" (fun _ => .ok { redirected := true, items := [exItem] })
     { redirected := true, items := [exItem] } rfl rfl⟩

/-- C7 counterexample: the claim that a crawl with `start_date > end_date`
surfaces a `MalformedWindowError` before any page fetch fails — no such
validation (or error type) exists anywhere in the code.  With
start = 2024-05-03 > end = 2024-05-01 and a nonempty first page, discovery
completes normally, returning `[]` after performing ONE page fetch (second
component). -/
theorem c7_counterexample :
    djinni_get_jobs_by_category "Python" c7env 20240503 20240501 5 = ([], 1) := by
  decide

/-- C7 (amended): the code never validates the window; with
`start_date > end_date` the crawl completes normally (no error raised, pages
still fetched) and returns the empty list, because the window filter is
unsatisfiable. -/
theorem c7_invalid_window_returns_empty :
    (∀ (category : String) (env : Nat → Nat → Except Unit DjinniResp)
       (s e : Int) (fuel : Nat), e < s →
       (djinni_get_jobs_by_category category env s e fuel).1 = []) ∧
    (∀ (category : String) (pages : Nat → Except Unit DouXhr)
       (s e : Int) (fuel : Nat), e < s →
       dou_get_jobs_by_category category pages s e fuel = []) := by
  constructor
  · intro category env s e fuel hlt
    apply List.eq_nil_iff_forall_not_mem.mpr
    intro j hj
    have := mem_djinniLoop_window hj
    omega
  · intro category pages s e fuel hlt
    apply List.eq_nil_iff_forall_not_mem.mpr
    intro j hj
    unfold dou_get_jobs_by_category at hj
    have := List.mem_filter.1 hj
    rw [inWindow_of_gt hlt] at this
    exact absurd this.2 (by simp)

theorem c7_witness :
    (djinni_get_jobs_by_category "Python" c7env 20240503 20240501 5).1 = [] ∧
    dou_get_jobs_by_category ".NET" (exDouEnv ".NET") 20240503 20240501 2 = [] :=
  ⟨c7_invalid_window_returns_empty.1 "Python" c7env 20240503 20240501 5 (by decide),
   c7_invalid_window_returns_empty.2 ".NET" (exDouEnv ".NET") 20240503 20240501 2 (by decide)⟩

/-- C8 counterexample: `convert_html_to_text` is NOT idempotent.  The normal
form of `"<p>ab</p><p>cd</p>"` is `"ab\n\ncd"`; re-normalizing it re-parses
the text as HTML, so the blank-line paragraph separator (whitespace in HTML)
collapses to a single space, giving `"ab cd"`. -/
theorem c8_counterexample :
    convert_html_to_text (convert_html_to_text "<p>ab</p><p>cd</p>") ≠
      convert_html_to_text "<p>ab</p><p>cd</p>" := by
  decide

/-- C8 (amended): the normalizer is not idempotent in general — re-running
the HTML stage collapses the paragraph separators the pipeline itself emits
(`"ab\n\ncd"` re-normalizes to `"ab cd"`); on a blank-line-free normal form
such as `"ab cd"`, re-normalizing is a no-op. -/
theorem c8_idempotence_analysis :
    convert_html_to_text "<p>ab</p><p>cd</p>" = "ab\n\ncd" ∧
    convert_html_to_text (convert_html_to_text "<p>ab</p><p>cd</p>") = "ab cd" ∧
    convert_html_to_text "ab cd" = "ab cd" := by
  refine ⟨by decide, by decide, by decide⟩

/-- The C9 scenario input: two leading spaces, a hash heading marker, blank
lines, an escaped dash, trailing spaces. -/
def c9input : String := "  # Hello\n\n\n   World\\-there  "

/-- C9 counterexample: on the scenario input, `convert_html_to_text` does
NOT return `"Hello\n\nWorld-there"`: the pipeline first runs the input
through `html2text`, which treats it as HTML — the newline runs collapse to
spaces and the backslash is markdown-escaped — so the spec's expected output
cannot survive the first stage. -/
theorem c9_counterexample :
    convert_html_to_text c9input ≠ "Hello\n\nWorld-there" := by
  decide

/-- C9 (amended): the regex cleanup stages alone (`base_parser.py:77-87`,
everything after the `html2text` call) map the scenario input exactly to
`"Hello\n\nWorld-there"` — heading marker stripped, spacing collapsed,
escape undone, trimmed — but the full `convert_html_to_text` applies the
HTML stage first and returns `"Hello World\-there"` instead. -/
theorem c9_scenario :
    cleanupStagesStr c9input = "Hello\n\nWorld-there" ∧
    convert_html_to_text c9input = "Hello World\\-there" := by
  refine ⟨by decide, by decide⟩

/-- C10: the description-fetch stage of `get_all_jobs` only adds the
`description` field or removes a posting wholesale: every returned posting
agrees with a discovery-produced posting on `category`, `company`, `title`,
`url`, `published_at` and `source`, and carries some description. -/
theorem c10_frame_preservation :
    ∀ (catJobs : String → List Job) (cats : List String)
      (getDesc : String → Except Unit String) (j : Job),
      j ∈ (get_all_jobs catJobs cats getDesc).1 →
      ∃ j0, j0 ∈ (cats.map catJobs).flatten ∧
        j.category = j0.category ∧ j.company = j0.company ∧
        j.title = j0.title ∧ j.url = j0.url ∧
        j.published_at = j0.published_at ∧ j.source = j0.source ∧
        ∃ d, j.description = some d := by
  intro catJobs cats getDesc j hj
  obtain ⟨j0, hj0, d, _, rfl⟩ := mem_get_all_jobs hj
  exact ⟨j0, hj0, rfl, rfl, rfl, rfl, rfl, rfl, d, rfl⟩

theorem c10_witness :
    ∃ j0, j0 ∈ ((["Python"].map
        (fun c => if c = "Python" then [exJobFail, exJobOk] else [])).flatten) ∧
      ({ exJobOk with description := some "text" } : Job).category = j0.category ∧
      ({ exJobOk with description := some "text" } : Job).company = j0.company ∧
      ({ exJobOk with description := some "text" } : Job).title = j0.title ∧
      ({ exJobOk with description := some "text" } : Job).url = j0.url ∧
      ({ exJobOk with description := some "text" } : Job).published_at = j0.published_at ∧
      ({ exJobOk with description := some "text" } : Job).source = j0.source ∧
      ∃ d, ({ exJobOk with description := some "text" } : Job).description = some d :=
  c10_frame_preservation (fun c => if c = "Python" then [exJobFail, exJobOk] else [])
    ["Python"] exFetch { exJobOk with description := some "text" } (by decide)
